import Mathlib

/-!
Shallow embedding of the todow repository (a minimal to-do list HTTP
service backed by a bolt key-value store).

Translated source:
  * `Item` (package todow, the unnamed library file)
  * `cmd/todow-server/main.go`: the bolt store methods
    (`boltDB.addItem`, `boltDB.removeItem`, `boltDB.completeItem`,
    `boltDB.allItems`), the HTTP handlers (`addItem`, `removeItem`,
    `completeItem`, `allItems`, `withID`, `authMiddleware`) and the
    routing in `main`.

Modelling conventions:
  * Go `int64` is `Int` (assigned IDs stay far below 2^63 here; the one
    place overflow of `strconv.ParseInt` matters is modelled explicitly
    by clamping in `parseInt64`).
  * `time.Time` is an abstract `Int` timestamp; `time.Now()` becomes an
    explicit `now` parameter.
  * The stored value under the single bucket/key is JSON bytes; it is
    modelled as `Blob`: either bytes that decode to an item list
    (`Blob.good`) or bytes whose decode fails with some message
    (`Blob.corrupt`).  `json.Marshal` of a collection always succeeds
    and produces the corresponding `Blob.good`.
  * A bolt `Update` transaction is rolled back when the transaction
    function returns an error; `dbUpdate` encodes exactly that.
  * Go error values are `GoErr`, keeping the dynamic type visible:
    `new(ErrNotFound)` produces a `*ErrNotFound` (`GoErr.ptrNotFound`),
    which is distinct from a plain `ErrNotFound` value
    (`GoErr.valNotFound`) in a Go type switch.
  * `r.BasicAuth()` with a missing/invalid header yields empty strings
    (the `ok` flag is ignored by the source); request credentials are
    an `Option (String × String)`.
  * URL paths are `List Char`; `Content-Type` and bodies are `String`.
-/

/-- Item from package todow: ID, Body, Created, Done. -/
structure Item where
  ID : Int
  Body : String
  Created : Int
  Done : Bool
deriving Repr, DecidableEq

/-- Stored bytes under the collection key: either bytes that decode to a
collection, or bytes whose JSON decode fails with a message. -/
inductive Blob where
  | good : List Item → Blob
  | corrupt : String → Blob
deriving Repr, DecidableEq

/-- Bolt database state: `none` = bucket "todow" absent; `some none` =
bucket present, key "items" absent; `some (some b)` = key holds `b`. -/
structure DBState where
  bucket : Option (Option Blob)
deriving Repr, DecidableEq

/-- Go error value, with the dynamic type kept visible for type
switches. `ptrNotFound` is what `new(ErrNotFound)` produces (a
`*ErrNotFound`); `valNotFound` is a plain `ErrNotFound` value, which no
code path of the server ever constructs; `errMsg` covers `fmt.Errorf`
and `errors.New` errors. -/
inductive GoErr where
  | valNotFound
  | ptrNotFound
  | errMsg : String → GoErr
deriving Repr, DecidableEq

/-- Error method of each error value; `ErrNotFound.Error()` returns
"not found" for the value and (by method promotion) the pointer. -/
def GoErr.text : GoErr → String
  | .valNotFound => "not found"
  | .ptrNotFound => "not found"
  | .errMsg s => s

/-- ID-assignment loop of `boltDB.addItem` (main.go:169-174):
`id := 1; for _, v := range col { if v.ID >= id { id = v.ID + 1 } }`. -/
def nextID (col : List Item) : Int :=
  col.foldl (fun id v => if v.ID ≥ id then v.ID + 1 else id) 1

/-- Removal loop of `boltDB.removeItem` (main.go:224-236): delete the
first item whose ID matches, keeping the rest in order; `none` when no
item matches. -/
def removeFirst (id : Int) : List Item → Option (List Item)
  | [] => none
  | v :: rest =>
    if v.ID = id then some rest
    else (removeFirst id rest).map (fun l => v :: l)

/-- Completion loop of `boltDB.completeItem` (main.go:274-286): set
`Done = true` on the first item whose ID matches; `none` when no item
matches. -/
def completeFirst (id : Int) : List Item → Option (List Item)
  | [] => none
  | v :: rest =>
    if v.ID = id then some ({ v with Done := true } :: rest)
    else (completeFirst id rest).map (fun l => v :: l)

/-- `tx.CreateBucketIfNotExists(bucketName)`: the bucket exists
afterwards, its key contents are preserved. -/
def ensureBucket (s : DBState) : DBState :=
  ⟨some (s.bucket.getD none)⟩

/-- Bolt `db.Update`: run the transaction body; if it returns an error
the transaction is rolled back and the state is unchanged. -/
def dbUpdate (f : DBState → Option GoErr × DBState) (s : DBState) :
    Option GoErr × DBState :=
  match f s with
  | (some e, _) => (some e, s)
  | (none, s2) => (none, s2)

/-- Rollback wrapper for the add transaction, which additionally
returns the (mutated) item. -/
def dbUpdateAdd (f : DBState → Option GoErr × DBState × Item)
    (item : Item) (s : DBState) : Option GoErr × DBState × Item :=
  match f s with
  | (some e, _, _) => (some e, s, item)
  | (none, s2, it) => (none, s2, it)

/-- Transaction body of `boltDB.addItem` (main.go:152-188): create the
bucket if needed, read the key (absent key = empty collection, corrupt
bytes = error), assign `nextID`, append, write back. -/
def boltDB.addItemTx (item : Item) (s : DBState) :
    Option GoErr × DBState × Item :=
  let s1 := ensureBucket s
  match s1.bucket.getD none with
  | some (Blob.corrupt msg) =>
    (some (GoErr.errMsg ("collection seems corrupt: " ++ msg)), s1, item)
  | some (Blob.good col) =>
    let item2 := { item with ID := nextID col }
    (none, ⟨some (some (Blob.good (col ++ [item2])))⟩, item2)
  | none =>
    let item2 := { item with ID := nextID [] }
    (none, ⟨some (some (Blob.good ([] ++ [item2])))⟩, item2)

/-- `boltDB.addItem` (main.go:151-189). -/
def boltDB.addItem (item : Item) (s : DBState) :
    Option GoErr × DBState × Item :=
  dbUpdateAdd (boltDB.addItemTx item) item s

/-- Transaction body of `boltDB.removeItem` (main.go:204-239): create
the bucket if needed; absent key or no matching item yields
`new(ErrNotFound)`; corrupt bytes yield a generic error; otherwise the
first matching item is deleted and the collection rewritten. -/
def boltDB.removeItemTx (id : Int) (s : DBState) :
    Option GoErr × DBState :=
  let s1 := ensureBucket s
  match s1.bucket.getD none with
  | none => (some GoErr.ptrNotFound, s1)
  | some (Blob.corrupt msg) =>
    (some (GoErr.errMsg ("collection seems corrupt: " ++ msg)), s1)
  | some (Blob.good col) =>
    match removeFirst id col with
    | some col2 => (none, ⟨some (some (Blob.good col2))⟩)
    | none => (some GoErr.ptrNotFound, s1)

/-- `boltDB.removeItem` (main.go:203-240). -/
def boltDB.removeItem (id : Int) (s : DBState) : Option GoErr × DBState :=
  dbUpdate (boltDB.removeItemTx id) s

/-- Transaction body of `boltDB.completeItem` (main.go:255-289). -/
def boltDB.completeItemTx (id : Int) (s : DBState) :
    Option GoErr × DBState :=
  let s1 := ensureBucket s
  match s1.bucket.getD none with
  | none => (some GoErr.ptrNotFound, s1)
  | some (Blob.corrupt msg) =>
    (some (GoErr.errMsg ("collection seems corrupt: " ++ msg)), s1)
  | some (Blob.good col) =>
    match completeFirst id col with
    | some col2 => (none, ⟨some (some (Blob.good col2))⟩)
    | none => (some GoErr.ptrNotFound, s1)

/-- `boltDB.completeItem` (main.go:254-290). -/
def boltDB.completeItem (id : Int) (s : DBState) : Option GoErr × DBState :=
  dbUpdate (boltDB.completeItemTx id) s

/-- `boltDB.allItems` (main.go:305-321): a read-only `View`; absent
bucket or absent key is the error "no items yet", otherwise the raw
stored bytes are returned undecoded. -/
def boltDB.allItems (s : DBState) : Except String Blob :=
  match s.bucket with
  | none => Except.error "no items yet"
  | some none => Except.error "no items yet"
  | some (some b) => Except.ok b

/-- Convenience: a state whose bucket and key exist and hold a
decodable collection. -/
def stGood (col : List Item) : DBState :=
  ⟨some (some (Blob.good col))⟩

/-- HTTP method of a request; `other` covers every method the API
switch in `main` (main.go:48-59) does not handle. -/
inductive Method where
  | GET
  | POST
  | DELETE
  | PATCH
  | other : String → Method
deriving Repr, DecidableEq

/-- HTTP request, reduced to what the server inspects: method, URL
path, Basic-Auth credentials (absent header = `none`), Content-Type,
the JSON decode of the body (`none` = decode error), and the value of
the form field "body". -/
structure Request where
  method : Method
  path : List Char
  creds : Option (String × String)
  contentType : String
  jsonBody : Option Item
  formBody : String
deriving Repr, DecidableEq

/-- HTTP response, reduced to what the handlers set: status, text
body, the WWW-Authenticate header, the Location header, and the raw
collection bytes written by the GET handler. -/
structure Response where
  status : Nat
  body : String
  wwwAuth : Option String := none
  location : Option String := none
  raw : Option Blob := none
deriving Repr, DecidableEq

/-- Response written by `http.NotFound`. -/
def notFoundResp : Response :=
  { status := 404, body := "404 page not found\n" }

/-- Response written by the auth middleware on failure:
`WWW-Authenticate: Basic` and `http.Error(w, "Unauthorized", 401)`. -/
def unauthorizedResp : Response :=
  { status := 401, body := "Unauthorized\n", wwwAuth := some "Basic" }

/-- Static server configuration: the Basic-Auth username/password pair
from the `-u`/`-p` flags. -/
structure Config where
  user : String
  pass : String
deriving Repr, DecidableEq

/-- Flag defaults `todow.HTTPUser` / `todow.HTTPPassword`. -/
def defaultConfig : Config := ⟨"todow", "todow"⟩

/-- `authorized` (main.go:336-338). -/
def authorized (u p : String) (cfg : Config) : Bool :=
  u == cfg.user && p == cfg.pass

/-- `r.BasicAuth()` with the `ok` flag ignored: a missing or invalid
Authorization header yields empty strings. -/
def basicCreds (r : Request) : String × String :=
  r.creds.getD ("", "")

/-- `authMiddleware` (main.go:323-334). -/
def authMiddleware (cfg : Config) (r : Request)
    (h : DBState → Response × DBState) (s : DBState) :
    Response × DBState :=
  let c := basicCreds r
  if authorized c.1 c.2 cfg then h s
  else (unauthorizedResp, s)

/-- `todow.APIPath` = "/api/", as a character list. -/
def apiPrefixChars : List Char := ['/', 'a', 'p', 'i', '/']

/-- Leftmost match of the unanchored regexp `/api/([0-9]+)`
(main.go:41): at each start position, try to match the literal prefix
followed by a non-empty maximal digit run; on failure advance one
character. Returns the captured digit run. -/
def findID : List Char → Option (List Char)
  | [] => none
  | c :: cs =>
    if apiPrefixChars.isPrefixOf (c :: cs) then
      let run := ((c :: cs).drop 5).takeWhile Char.isDigit
      if run.isEmpty then findID cs else some run
    else findID cs

/-- Numeric value of a digit run. -/
def digitsToNat (run : List Char) : Nat :=
  run.foldl (fun n c => n * 10 + (c.toNat - 48)) 0

/-- `strconv.ParseInt(m[1], 10, 64)` on an all-digit string, with the
error ignored (main.go:105): overflow returns the clamped maximum
int64 value. -/
def parseInt64 (run : List Char) : Int :=
  min (digitsToNat run : Int) (2 ^ 63 - 1)

/-- `withID` (main.go:98-108): extract the ID via the regexp; no match
is `http.NotFound`, otherwise the wrapped handler runs with the parsed
ID. -/
def withID (h : Int → DBState → Response × DBState) (path : List Char)
    (s : DBState) : Response × DBState :=
  match findID path with
  | none => (notFoundResp, s)
  | some run => h (parseInt64 run) s

/-- `removeItem` handler (main.go:191-201): a Go type switch on the
store error. `case ErrNotFound` matches only the dynamic type
`ErrNotFound` itself; the `*ErrNotFound` produced by the store matches
`case error` instead. -/
def removeItem (id : Int) (s : DBState) : Response × DBState :=
  match boltDB.removeItem id s with
  | (some GoErr.valNotFound, s2) => (notFoundResp, s2)
  | (some e, s2) => ({ status := 500, body := GoErr.text e ++ "\n" }, s2)
  | (none, s2) =>
    ({ status := 200, body := "Removed item #" ++ toString id ++ "\n" }, s2)

/-- `completeItem` handler (main.go:242-252), same type switch shape
as `removeItem`. -/
def completeItem (id : Int) (s : DBState) : Response × DBState :=
  match boltDB.completeItem id s with
  | (some GoErr.valNotFound, s2) => (notFoundResp, s2)
  | (some e, s2) => ({ status := 500, body := GoErr.text e ++ "\n" }, s2)
  | (none, s2) =>
    ({ status := 200, body := "Completed item #" ++ toString id ++ "\n" }, s2)

/-- `addItem` handler (main.go:110-149): JSON requests use the decoded
item as-is (the bad decode error string is the result of the missing
`Sprintf` argument in the source); form requests build an item from
the "body" field with `Created = now`; other content types are
rejected with 400 before the store is touched. -/
def addItem (now : Int) (r : Request) (s : DBState) : Response × DBState :=
  if r.contentType = "application/json" then
    match r.jsonBody with
    | none =>
      ({ status := 400, body := "unable to decode todo item: %!s(MISSING)\n" }, s)
    | some item =>
      match boltDB.addItem item s with
      | (some e, s2, _) =>
        ({ status := 500, body := GoErr.text e ++ "\n" }, s2)
      | (none, s2, it2) =>
        ({ status := 201, body := "Added item #" ++ toString it2.ID ++ "\n" }, s2)
  else if r.contentType = "application/x-www-form-urlencoded" then
    match boltDB.addItem { ID := 0, Body := r.formBody, Created := now, Done := false } s with
    | (some e, s2, _) =>
      ({ status := 500, body := GoErr.text e ++ "\n" }, s2)
    | (none, s2, _) =>
      ({ status := 303, body := "", location := some "/" }, s2)
  else
    ({ status := 400, body := "content type not supported\n" }, s)

/-- `allItems` handler (main.go:292-303): any store error becomes 500
"no items yet"; success writes the raw stored bytes. -/
def allItems (s : DBState) : Response × DBState :=
  match boltDB.allItems s with
  | Except.error _ => ({ status := 500, body := "no items yet\n" }, s)
  | Except.ok b => ({ status := 200, body := "", raw := some b }, s)

/-- Root handler (main.go:62-84): load the raw bytes (500 with the
error text on failure), decode them (500 on corrupt bytes), then
render the HTML page (template rendering is glue and not modelled; the
body is left empty). -/
def indexHandler (s : DBState) : Response × DBState :=
  match boltDB.allItems s with
  | Except.error e => ({ status := 500, body := e ++ "\n" }, s)
  | Except.ok (Blob.corrupt msg) =>
    ({ status := 500, body := "unable to unmarshal collection: " ++ msg ++ "\n" }, s)
  | Except.ok (Blob.good _) => ({ status := 200, body := "" }, s)

/-- Push one slash-separated segment onto the segment stack of
`path.Clean` for a rooted path: empty and "." segments vanish, ".."
pops the previous segment (a no-op at the root), anything else is
kept.  The stack holds the most recent segment first. -/
def pushSeg (stack : List (List Char)) (cur : List Char) :
    List (List Char) :=
  if cur = [] ∨ cur = ['.'] then stack
  else if cur = ['.', '.'] then stack.tail
  else cur :: stack

/-- Segment loop of `path.Clean` on the characters after the leading
slash of a rooted path: accumulate the current segment until a slash,
pushing finished segments through `pushSeg`. -/
def cleanLoop (stack : List (List Char)) (cur : List Char) :
    List Char → List (List Char)
  | [] => pushSeg stack cur
  | '/' :: rest => cleanLoop (pushSeg stack cur) [] rest
  | c :: rest => cleanLoop stack (cur ++ [c]) rest

/-- `path.Clean` of the Go standard library (an external collaborator)
restricted to rooted paths, which is all `cleanPath` ever passes it:
the cleaned path is the root slash followed by the surviving segments
joined by slashes, with no trailing slash; an empty segment stack
yields "/". -/
def pathClean (p : List Char) : List Char :=
  let segs := (cleanLoop [] [] (p.drop 1)).reverse
  if segs = [] then ['/']
  else segs.foldl (fun acc seg => acc ++ '/' :: seg) []

/-- `cleanPath` of net/http (an external collaborator): an empty path
becomes "/", a relative path is rooted first, the result is
`path.Clean` of it, and a trailing slash of the input is restored
unless the result is "/" itself. -/
def cleanPath (p : List Char) : List Char :=
  match p with
  | [] => ['/']
  | c :: _ =>
    let rooted := if c = '/' then p else '/' :: p
    let np := pathClean rooted
    if rooted.getLast? = some '/' ∧ np ≠ ['/'] then np ++ ['/'] else np

/-- The 301 response a `ServeMux` redirect produces; the target path
becomes the Location header (the HTML body `http.Redirect` writes for
GET requests is glue and not modelled). -/
def movedPermanently (target : List Char) : Response :=
  { status := 301, body := "", location := some (String.mk target) }

/-- Routing of `main` (main.go:47-84) through a net/http `ServeMux`
with the patterns "/api/" and "/" registered.  Following
`ServeMux.Handler`, the mux first redirects the subtree root: a
request whose cleaned path is exactly "/api" (not itself registered,
while "/api/" is) gets 301 to "/api/"; then a request whose path is
not in canonical form gets 301 to its cleaned path; both happen
before any handler, hence before any auth check.  (The exemption of
CONNECT requests from path canonicalization is not modelled; no
theorem below concerns a CONNECT to a non-canonical path.)  A
dispatched request under the API prefix switches on the method
(unhandled methods get `http.NotFound` with no auth check); the
pattern "/" catches everything else. -/
def serve (cfg : Config) (now : Int) (r : Request) (s : DBState) :
    Response × DBState :=
  let p := cleanPath r.path
  if p = ['/', 'a', 'p', 'i'] then
    (movedPermanently (p ++ ['/']), s)
  else if p ≠ r.path then
    (movedPermanently p, s)
  else if apiPrefixChars.isPrefixOf r.path then
    match r.method with
    | Method.GET => authMiddleware cfg r allItems s
    | Method.POST => authMiddleware cfg r (addItem now r) s
    | Method.DELETE => authMiddleware cfg r (withID removeItem r.path) s
    | Method.PATCH => authMiddleware cfg r (withID completeItem r.path) s
    | Method.other _ => (notFoundResp, s)
  else
    authMiddleware cfg r indexHandler s

/-- Methods the API switch in `main` dispatches to a handler; every
other method falls into the `http.NotFound` default branch. -/
def handledMethod : Method → Bool
  | Method.GET => true
  | Method.POST => true
  | Method.DELETE => true
  | Method.PATCH => true
  | Method.other _ => false

/-- Body of the completion loop, as an item transformer: the item with
the matching ID gets `Done := true`, every other item is unchanged. -/
def markDone (id : Int) (v : Item) : Item :=
  if v.ID = id then { v with Done := true } else v

/-- One step of the ID-assignment loop is a max. -/
lemma nextID_step (a : Int) (v : Item) :
    (if v.ID ≥ a then v.ID + 1 else a) = max a (v.ID + 1) := by
  by_cases h : v.ID ≥ a
  · rw [if_pos h]
    exact (max_eq_right (by omega)).symm
  · rw [if_neg h]
    exact (max_eq_left (by omega)).symm

/-- The ID-assignment fold commutes with max in its initial value. -/
lemma foldl_step_max (l : List Item) : ∀ a b : Int,
    l.foldl (fun id v => if v.ID ≥ id then v.ID + 1 else id) (max a b)
      = max a (l.foldl (fun id v => if v.ID ≥ id then v.ID + 1 else id) b) := by
  induction l with
  | nil => intro a b; rfl
  | cons v l ih =>
    intro a b
    simp only [List.foldl_cons]
    rw [nextID_step (max a b) v, nextID_step b v, max_assoc]
    exact ih a (max b (v.ID + 1))

/-- Recursion equation for `nextID`. -/
lemma nextID_cons (v : Item) (l : List Item) :
    nextID (v :: l) = max (v.ID + 1) (nextID l) := by
  unfold nextID
  simp only [List.foldl_cons]
  rw [nextID_step 1 v, max_comm 1 (v.ID + 1)]
  exact foldl_step_max l (v.ID + 1) 1

/-- The assigned ID is strictly above every ID in the collection. -/
lemma lt_nextID (l : List Item) : ∀ v ∈ l, v.ID < nextID l := by
  induction l with
  | nil => intro v hv; simp at hv
  | cons w l ih =>
    intro v hv
    rw [nextID_cons]
    rcases List.mem_cons.mp hv with h | h
    · subst h
      exact lt_max_iff.mpr (Or.inl (by omega))
    · exact lt_max_iff.mpr (Or.inr (ih v h))

/-- On a non-empty collection whose IDs are all at least 1, the
assigned ID is one more than the maximal existing ID. -/
lemma nextID_eq_max_add_one (l : List Item) (hne : l ≠ [])
    (hpos : ∀ v ∈ l, 1 ≤ v.ID) :
    ∃ v ∈ l, nextID l = v.ID + 1 ∧ ∀ w ∈ l, w.ID ≤ v.ID := by
  induction l with
  | nil => exact absurd rfl hne
  | cons u l ih =>
    cases l with
    | nil =>
      refine ⟨u, List.mem_cons_self u [], ?_, ?_⟩
      · rw [nextID_cons]
        have h1 : 1 ≤ u.ID := hpos u (List.mem_cons_self u [])
        have hn : nextID ([] : List Item) = 1 := rfl
        rw [hn]
        exact max_eq_left (by omega)
      · intro w hw
        rcases List.mem_cons.mp hw with h | h
        · subst h; exact le_refl _
        · simp at h
    | cons u2 l2 =>
      obtain ⟨v, hv, hvEq, hvMax⟩ :=
        ih (by simp) (fun w hw => hpos w (List.mem_cons_of_mem _ hw))
      rw [nextID_cons, hvEq]
      rcases le_total u.ID v.ID with h | h
      · refine ⟨v, List.mem_cons_of_mem _ hv, max_eq_right (by omega), ?_⟩
        intro w hw
        rcases List.mem_cons.mp hw with hh | hh
        · subst hh; exact h
        · exact hvMax w hh
      · refine ⟨u, List.mem_cons_self _ _, max_eq_left (by omega), ?_⟩
        intro w hw
        rcases List.mem_cons.mp hw with hh | hh
        · subst hh; exact le_refl _
        · exact le_trans (hvMax w hh) h

/-- Removal finds nothing when the ID is absent. -/
lemma removeFirst_eq_none (id : Int) (l : List Item)
    (h : id ∉ l.map Item.ID) : removeFirst id l = none := by
  induction l with
  | nil => rfl
  | cons v l ih =>
    simp only [List.map_cons, List.mem_cons, not_or] at h
    unfold removeFirst
    rw [if_neg (fun hh => h.1 hh.symm), ih h.2]
    rfl

/-- Completion finds nothing when the ID is absent. -/
lemma completeFirst_eq_none (id : Int) (l : List Item)
    (h : id ∉ l.map Item.ID) : completeFirst id l = none := by
  induction l with
  | nil => rfl
  | cons v l ih =>
    simp only [List.map_cons, List.mem_cons, not_or] at h
    unfold completeFirst
    rw [if_neg (fun hh => h.1 hh.symm), ih h.2]
    rfl

/-- C1: for every stored collection (whose IDs satisfy the documented
invariant `ID ≥ 1`), `boltDB.addItem` assigns to the new item an ID
equal to `max(existing IDs) + 1`, or `1` if the collection is empty or
the bucket/key is absent, and the assigned ID is strictly greater than
every ID currently present. -/
theorem addItem_assigns_max_succ (item : Item) (col : List Item)
    (hpos : ∀ v ∈ col, 1 ≤ v.ID) :
    boltDB.addItem item ⟨none⟩
        = (none, stGood [{ item with ID := 1 }], { item with ID := 1 })
    ∧ boltDB.addItem item ⟨some none⟩
        = (none, stGood [{ item with ID := 1 }], { item with ID := 1 })
    ∧ boltDB.addItem item (stGood col)
        = (none, stGood (col ++ [{ item with ID := nextID col }]),
           { item with ID := nextID col })
    ∧ (col = [] → nextID col = 1)
    ∧ (col ≠ [] → ∃ v ∈ col, nextID col = v.ID + 1 ∧ ∀ w ∈ col, w.ID ≤ v.ID)
    ∧ (∀ w ∈ col, w.ID < nextID col) := by
  refine ⟨rfl, rfl, rfl, ?_, ?_, lt_nextID col⟩
  · intro h; subst h; rfl
  · intro h; exact nextID_eq_max_add_one col h hpos

theorem addItem_assigns_max_succ_witness :
    (∀ v ∈ [(⟨3, "a", 5, false⟩ : Item), ⟨1, "b", 6, true⟩], 1 ≤ v.ID)
    ∧ (boltDB.addItem ⟨0, "c", 7, false⟩ ⟨none⟩
        = (none, stGood [{ (⟨0, "c", 7, false⟩ : Item) with ID := 1 }],
           { (⟨0, "c", 7, false⟩ : Item) with ID := 1 })
      ∧ boltDB.addItem ⟨0, "c", 7, false⟩ ⟨some none⟩
        = (none, stGood [{ (⟨0, "c", 7, false⟩ : Item) with ID := 1 }],
           { (⟨0, "c", 7, false⟩ : Item) with ID := 1 })
      ∧ boltDB.addItem ⟨0, "c", 7, false⟩
          (stGood [⟨3, "a", 5, false⟩, ⟨1, "b", 6, true⟩])
        = (none, stGood ([(⟨3, "a", 5, false⟩ : Item), ⟨1, "b", 6, true⟩]
              ++ [{ (⟨0, "c", 7, false⟩ : Item) with
                    ID := nextID [⟨3, "a", 5, false⟩, ⟨1, "b", 6, true⟩] }]),
           { (⟨0, "c", 7, false⟩ : Item) with
             ID := nextID [⟨3, "a", 5, false⟩, ⟨1, "b", 6, true⟩] })
      ∧ ([(⟨3, "a", 5, false⟩ : Item), ⟨1, "b", 6, true⟩] = [] →
          nextID [⟨3, "a", 5, false⟩, ⟨1, "b", 6, true⟩] = 1)
      ∧ ([(⟨3, "a", 5, false⟩ : Item), ⟨1, "b", 6, true⟩] ≠ [] →
          ∃ v ∈ [(⟨3, "a", 5, false⟩ : Item), ⟨1, "b", 6, true⟩],
            nextID [⟨3, "a", 5, false⟩, ⟨1, "b", 6, true⟩] = v.ID + 1
            ∧ ∀ w ∈ [(⟨3, "a", 5, false⟩ : Item), ⟨1, "b", 6, true⟩], w.ID ≤ v.ID)
      ∧ (∀ w ∈ [(⟨3, "a", 5, false⟩ : Item), ⟨1, "b", 6, true⟩],
          w.ID < nextID [⟨3, "a", 5, false⟩, ⟨1, "b", 6, true⟩])) :=
  ⟨by decide,
   addItem_assigns_max_succ ⟨0, "c", 7, false⟩
     [⟨3, "a", 5, false⟩, ⟨1, "b", 6, true⟩] (by decide)⟩

/-- C2: the claim says store NotFound maps to HTTP 404, but the store
returns `new(ErrNotFound)`, a `*ErrNotFound`, whose dynamic type never
matches `case ErrNotFound` in the handlers' type switch; it falls into
`case error` and produces 500 with body "not found" instead. Any other
store error does map to 500 with the error text as the body. -/
theorem notFound_maps_to_500 :
    removeItem 1 ⟨some none⟩
      = ({ status := 500, body := "not found\n" }, ⟨some none⟩)
    ∧ completeItem 1 ⟨some none⟩
      = ({ status := 500, body := "not found\n" }, ⟨some none⟩)
    ∧ (removeItem 1 ⟨some none⟩).1.status ≠ 404
    ∧ (completeItem 1 ⟨some none⟩).1.status ≠ 404
    ∧ removeItem 1 ⟨some (some (Blob.corrupt "bad"))⟩
      = ({ status := 500, body := "collection seems corrupt: bad\n" },
         ⟨some (some (Blob.corrupt "bad"))⟩)
    ∧ completeItem 1 ⟨some (some (Blob.corrupt "bad"))⟩
      = ({ status := 500, body := "collection seems corrupt: bad\n" },
         ⟨some (some (Blob.corrupt "bad"))⟩) := by
  refine ⟨rfl, rfl, ?_, ?_, rfl, rfl⟩ <;> decide

/-- C3: for every ID absent from the collection — including when the
bucket or the key does not yet exist — both `boltDB.removeItem` and
`boltDB.completeItem` fail with the NotFound error and leave the
stored state unchanged (the bucket created inside the transaction is
rolled back together with it). -/
theorem removeComplete_absent_notFound (id : Int) (col : List Item)
    (hid : id ∉ col.map Item.ID) :
    boltDB.removeItem id ⟨none⟩ = (some GoErr.ptrNotFound, ⟨none⟩)
    ∧ boltDB.removeItem id ⟨some none⟩ = (some GoErr.ptrNotFound, ⟨some none⟩)
    ∧ boltDB.removeItem id (stGood col) = (some GoErr.ptrNotFound, stGood col)
    ∧ boltDB.completeItem id ⟨none⟩ = (some GoErr.ptrNotFound, ⟨none⟩)
    ∧ boltDB.completeItem id ⟨some none⟩
      = (some GoErr.ptrNotFound, ⟨some none⟩)
    ∧ boltDB.completeItem id (stGood col)
      = (some GoErr.ptrNotFound, stGood col) := by
  refine ⟨rfl, rfl, ?_, rfl, rfl, ?_⟩
  · simp [boltDB.removeItem, boltDB.removeItemTx, dbUpdate, ensureBucket,
      stGood, removeFirst_eq_none id col hid]
  · simp [boltDB.completeItem, boltDB.completeItemTx, dbUpdate, ensureBucket,
      stGood, completeFirst_eq_none id col hid]

theorem removeComplete_absent_notFound_witness :
    ((7 : Int) ∉ [(⟨1, "a", 0, false⟩ : Item), ⟨2, "b", 0, true⟩].map Item.ID)
    ∧ (boltDB.removeItem 7 ⟨none⟩ = (some GoErr.ptrNotFound, ⟨none⟩)
      ∧ boltDB.removeItem 7 ⟨some none⟩
        = (some GoErr.ptrNotFound, ⟨some none⟩)
      ∧ boltDB.removeItem 7 (stGood [⟨1, "a", 0, false⟩, ⟨2, "b", 0, true⟩])
        = (some GoErr.ptrNotFound,
           stGood [⟨1, "a", 0, false⟩, ⟨2, "b", 0, true⟩])
      ∧ boltDB.completeItem 7 ⟨none⟩ = (some GoErr.ptrNotFound, ⟨none⟩)
      ∧ boltDB.completeItem 7 ⟨some none⟩
        = (some GoErr.ptrNotFound, ⟨some none⟩)
      ∧ boltDB.completeItem 7 (stGood [⟨1, "a", 0, false⟩, ⟨2, "b", 0, true⟩])
        = (some GoErr.ptrNotFound,
           stGood [⟨1, "a", 0, false⟩, ⟨2, "b", 0, true⟩])) :=
  ⟨by decide,
   removeComplete_absent_notFound 7 [⟨1, "a", 0, false⟩, ⟨2, "b", 0, true⟩]
     (by decide)⟩

/-- Filtering by a ne-ID predicate is the identity when the ID is
absent. -/
lemma filter_ne_of_not_mem (id : Int) (l : List Item)
    (h : id ∉ l.map Item.ID) :
    l.filter (fun v => decide (v.ID ≠ id)) = l := by
  induction l with
  | nil => rfl
  | cons v l ih =>
    simp only [List.map_cons, List.mem_cons, not_or] at h
    rw [List.filter_cons_of_pos (by simpa using fun hh => h.1 hh.symm), ih h.2]

/-- When IDs are unique and the ID is present, the removal loop
removes exactly the items with that ID, preserving the order of the
rest. -/
lemma removeFirst_eq_filter (id : Int) (col : List Item)
    (hnd : (col.map Item.ID).Nodup) (hmem : id ∈ col.map Item.ID) :
    removeFirst id col = some (col.filter (fun v => decide (v.ID ≠ id))) := by
  induction col with
  | nil => simp at hmem
  | cons v l ih =>
    simp only [List.map_cons, List.nodup_cons] at hnd
    by_cases h : v.ID = id
    · unfold removeFirst
      rw [if_pos h,
        List.filter_cons_of_neg (by simp [h]),
        filter_ne_of_not_mem id l (h ▸ hnd.1)]
    · have hmem2 : id ∈ l.map Item.ID := by
        simp only [List.map_cons, List.mem_cons] at hmem
        rcases hmem with hh | hh
        · exact absurd hh.symm h
        · exact hh
      unfold removeFirst
      rw [if_neg h, ih hnd.2 hmem2,
        List.filter_cons_of_pos (by simpa using fun hh => h hh)]
      rfl

/-- The removal loop deletes exactly one element. -/
lemma removeFirst_length (id : Int) : ∀ col col2 : List Item,
    removeFirst id col = some col2 → col2.length + 1 = col.length := by
  intro col
  induction col with
  | nil => intro col2 h; exact Option.noConfusion h
  | cons v l ih =>
    intro col2 h
    unfold removeFirst at h
    by_cases hv : v.ID = id
    · rw [if_pos hv] at h
      cases h
      rfl
    · rw [if_neg hv] at h
      match hrec : removeFirst id l with
      | none => rw [hrec] at h; simp at h
      | some l2 =>
        rw [hrec] at h
        simp only [Option.map_some'] at h
        cases h
        simp [ih l2 hrec]

/-- Store-level removal on a decodable collection with the ID present
and IDs unique. -/
lemma boltDB_removeItem_good (id : Int) (col : List Item)
    (hnd : (col.map Item.ID).Nodup) (hmem : id ∈ col.map Item.ID) :
    boltDB.removeItem id (stGood col)
      = (none, stGood (col.filter (fun v => decide (v.ID ≠ id)))) := by
  simp [boltDB.removeItem, boltDB.removeItemTx, dbUpdate, ensureBucket,
    stGood, removeFirst_eq_filter id col hnd hmem]

/-- C5: on a collection with unique IDs containing the given ID,
`boltDB.removeItem` deletes exactly that single item (the survivors
are the items with a different ID, one fewer than before) and
preserves the relative order of the remaining items (the result is a
sublist of the original). -/
theorem removeItem_deletes_one_preserving_order (id : Int) (col : List Item)
    (hnd : (col.map Item.ID).Nodup) (hmem : id ∈ col.map Item.ID) :
    boltDB.removeItem id (stGood col)
      = (none, stGood (col.filter (fun v => decide (v.ID ≠ id))))
    ∧ List.Sublist (col.filter (fun v => decide (v.ID ≠ id))) col
    ∧ (col.filter (fun v => decide (v.ID ≠ id))).length + 1 = col.length := by
  refine ⟨boltDB_removeItem_good id col hnd hmem, List.filter_sublist col, ?_⟩
  have h := removeFirst_eq_filter id col hnd hmem
  exact removeFirst_length id col _ h

theorem removeItem_deletes_one_preserving_order_witness :
    (([(⟨1, "a", 0, false⟩ : Item), ⟨2, "b", 1, true⟩, ⟨3, "c", 2, false⟩].map
        Item.ID).Nodup
     ∧ (2 : Int) ∈ [(⟨1, "a", 0, false⟩ : Item), ⟨2, "b", 1, true⟩,
          ⟨3, "c", 2, false⟩].map Item.ID)
    ∧ (boltDB.removeItem 2
          (stGood [⟨1, "a", 0, false⟩, ⟨2, "b", 1, true⟩, ⟨3, "c", 2, false⟩])
        = (none, stGood ([(⟨1, "a", 0, false⟩ : Item), ⟨2, "b", 1, true⟩,
              ⟨3, "c", 2, false⟩].filter (fun v => decide (v.ID ≠ 2))))
      ∧ List.Sublist ([(⟨1, "a", 0, false⟩ : Item), ⟨2, "b", 1, true⟩,
            ⟨3, "c", 2, false⟩].filter (fun v => decide (v.ID ≠ 2)))
          [(⟨1, "a", 0, false⟩ : Item), ⟨2, "b", 1, true⟩, ⟨3, "c", 2, false⟩]
      ∧ ([(⟨1, "a", 0, false⟩ : Item), ⟨2, "b", 1, true⟩,
            ⟨3, "c", 2, false⟩].filter (fun v => decide (v.ID ≠ 2))).length + 1
          = [(⟨1, "a", 0, false⟩ : Item), ⟨2, "b", 1, true⟩,
             ⟨3, "c", 2, false⟩].length) :=
  ⟨⟨by decide, by decide⟩,
   removeItem_deletes_one_preserving_order 2
     [⟨1, "a", 0, false⟩, ⟨2, "b", 1, true⟩, ⟨3, "c", 2, false⟩]
     (by decide) (by decide)⟩

/-- Marking by a missing ID is the identity. -/
lemma map_markDone_of_not_mem (id : Int) (l : List Item)
    (h : id ∉ l.map Item.ID) : l.map (markDone id) = l := by
  induction l with
  | nil => rfl
  | cons v l ih =>
    simp only [List.map_cons, List.mem_cons, not_or] at h
    simp only [List.map_cons, ih h.2]
    rw [markDone, if_neg (fun hh => h.1 hh.symm)]

/-- When IDs are unique and the ID is present, the completion loop
marks exactly the items with that ID done. -/
lemma completeFirst_eq_map (id : Int) (col : List Item)
    (hnd : (col.map Item.ID).Nodup) (hmem : id ∈ col.map Item.ID) :
    completeFirst id col = some (col.map (markDone id)) := by
  induction col with
  | nil => simp at hmem
  | cons v l ih =>
    simp only [List.map_cons, List.nodup_cons] at hnd
    by_cases h : v.ID = id
    · unfold completeFirst
      rw [if_pos h]
      simp only [List.map_cons, map_markDone_of_not_mem id l (h ▸ hnd.1)]
      rw [markDone, if_pos h]
    · have hmem2 : id ∈ l.map Item.ID := by
        simp only [List.map_cons, List.mem_cons] at hmem
        rcases hmem with hh | hh
        · exact absurd hh.symm h
        · exact hh
      unfold completeFirst
      rw [if_neg h, ih hnd.2 hmem2]
      simp only [List.map_cons]
      rw [markDone, if_neg h]
      rfl

/-- Store-level completion on a decodable collection with the ID
present and IDs unique. -/
lemma boltDB_completeItem_good (id : Int) (col : List Item)
    (hnd : (col.map Item.ID).Nodup) (hmem : id ∈ col.map Item.ID) :
    boltDB.completeItem id (stGood col)
      = (none, stGood (col.map (markDone id))) := by
  simp [boltDB.completeItem, boltDB.completeItemTx, dbUpdate, ensureBucket,
    stGood, completeFirst_eq_map id col hnd hmem]

/-- Marking preserves the ID of every item. -/
lemma markDone_ID (id : Int) (v : Item) : (markDone id v).ID = v.ID := by
  rw [markDone]
  split <;> rfl

/-- Marking preserves the ID sequence of the collection. -/
lemma map_markDone_IDs (id : Int) (l : List Item) :
    (l.map (markDone id)).map Item.ID = l.map Item.ID := by
  induction l with
  | nil => rfl
  | cons v l ih => simp [markDone_ID, ih]

/-- After a marking pass, every item carrying the marked ID is done. -/
lemma markDone_done (id : Int) (v : Item) (l : List Item)
    (hv : v ∈ l.map (markDone id)) (hid : v.ID = id) : v.Done = true := by
  obtain ⟨w, _, rfl⟩ := List.mem_map.mp hv
  rw [markDone] at hid ⊢
  by_cases h : w.ID = id
  · rw [if_pos h]
  · rw [if_neg h] at hid
    exact absurd hid h

/-- C6: on a collection with unique IDs containing the given ID,
`boltDB.completeItem` sets that item's Done flag to true and leaves
every other item — and the target item's ID, Body and Created fields —
unchanged: the new collection is the pointwise marking of the old one,
where marking preserves ID, Body and Created, sets Done on the target,
and is the identity on every other item. -/
theorem completeItem_sets_done_frame (id : Int) (col : List Item)
    (hnd : (col.map Item.ID).Nodup) (hmem : id ∈ col.map Item.ID) :
    boltDB.completeItem id (stGood col)
      = (none, stGood (col.map (markDone id)))
    ∧ (∀ v ∈ col,
        (markDone id v).ID = v.ID
        ∧ (markDone id v).Body = v.Body
        ∧ (markDone id v).Created = v.Created
        ∧ (v.ID = id → (markDone id v).Done = true)
        ∧ (v.ID ≠ id → markDone id v = v)) := by
  refine ⟨boltDB_completeItem_good id col hnd hmem, ?_⟩
  intro v _
  refine ⟨markDone_ID id v, ?_, ?_, ?_, ?_⟩
  · rw [markDone]; split <;> rfl
  · rw [markDone]; split <;> rfl
  · intro h; rw [markDone, if_pos h]
  · intro h; rw [markDone, if_neg h]

theorem completeItem_sets_done_frame_witness :
    (([(⟨1, "a", 0, false⟩ : Item), ⟨2, "b", 1, false⟩].map Item.ID).Nodup
     ∧ (1 : Int) ∈ [(⟨1, "a", 0, false⟩ : Item), ⟨2, "b", 1, false⟩].map Item.ID)
    ∧ (boltDB.completeItem 1 (stGood [⟨1, "a", 0, false⟩, ⟨2, "b", 1, false⟩])
        = (none, stGood ([(⟨1, "a", 0, false⟩ : Item),
              ⟨2, "b", 1, false⟩].map (markDone 1)))
      ∧ (∀ v ∈ [(⟨1, "a", 0, false⟩ : Item), ⟨2, "b", 1, false⟩],
          (markDone 1 v).ID = v.ID
          ∧ (markDone 1 v).Body = v.Body
          ∧ (markDone 1 v).Created = v.Created
          ∧ (v.ID = 1 → (markDone 1 v).Done = true)
          ∧ (v.ID ≠ 1 → markDone 1 v = v))) :=
  ⟨⟨by decide, by decide⟩,
   completeItem_sets_done_frame 1 [⟨1, "a", 0, false⟩, ⟨2, "b", 1, false⟩]
     (by decide) (by decide)⟩

/-- C7: on a collection with unique IDs containing the given ID,
calling `boltDB.completeItem` twice succeeds both times (no error on
the second call) and leaves the item's Done flag true after each
call. -/
theorem completeItem_twice_succeeds (id : Int) (col : List Item)
    (hnd : (col.map Item.ID).Nodup) (hmem : id ∈ col.map Item.ID) :
    ∃ c1 c2,
      boltDB.completeItem id (stGood col) = (none, stGood c1)
      ∧ boltDB.completeItem id (stGood c1) = (none, stGood c2)
      ∧ (∀ v ∈ c1, v.ID = id → v.Done = true)
      ∧ (∀ v ∈ c2, v.ID = id → v.Done = true) := by
  have hnd1 : ((col.map (markDone id)).map Item.ID).Nodup := by
    rw [map_markDone_IDs]; exact hnd
  have hmem1 : id ∈ (col.map (markDone id)).map Item.ID := by
    rw [map_markDone_IDs]; exact hmem
  refine ⟨col.map (markDone id), (col.map (markDone id)).map (markDone id),
    boltDB_completeItem_good id col hnd hmem,
    boltDB_completeItem_good id (col.map (markDone id)) hnd1 hmem1,
    ?_, ?_⟩
  · intro v hv hid; exact markDone_done id v col hv hid
  · intro v hv hid; exact markDone_done id v (col.map (markDone id)) hv hid

theorem completeItem_twice_succeeds_witness :
    (([(⟨4, "a", 0, false⟩ : Item), ⟨9, "b", 1, false⟩].map Item.ID).Nodup
     ∧ (9 : Int) ∈ [(⟨4, "a", 0, false⟩ : Item), ⟨9, "b", 1, false⟩].map Item.ID)
    ∧ (∃ c1 c2,
        boltDB.completeItem 9 (stGood [⟨4, "a", 0, false⟩, ⟨9, "b", 1, false⟩])
          = (none, stGood c1)
        ∧ boltDB.completeItem 9 (stGood c1) = (none, stGood c2)
        ∧ (∀ v ∈ c1, v.ID = 9 → v.Done = true)
        ∧ (∀ v ∈ c2, v.ID = 9 → v.Done = true)) :=
  ⟨⟨by decide, by decide⟩,
   completeItem_twice_succeeds 9 [⟨4, "a", 0, false⟩, ⟨9, "b", 1, false⟩]
     (by decide) (by decide)⟩

/-- Failing the credential check short-circuits the middleware. -/
lemma authMiddleware_unauthorized (cfg : Config) (r : Request)
    (h : DBState → Response × DBState) (s : DBState)
    (hauth : authorized (basicCreds r).1 (basicCreds r).2 cfg = false) :
    authMiddleware cfg r h s = (unauthorizedResp, s) := by
  simp [authMiddleware, hauth]

/-- C4 counterexample: three credential-free requests that do not
receive 401. A PUT to the API path falls into the method switch's
default `http.NotFound` branch before any auth check and gets 404;
with an empty configured credential pair, a request with no
Authorization header passes the check (BasicAuth yields empty strings)
and reaches the store, getting 500 "no items yet" from the empty
store; and a GET of /api (no trailing slash) receives the mux's 301
subtree-root redirect before any handler or auth check. -/
theorem auth_gate_counterexample :
    serve defaultConfig 0
      { method := Method.other "PUT", path := apiPrefixChars, creds := none,
        contentType := "", jsonBody := none, formBody := "" } ⟨none⟩
      = (notFoundResp, ⟨none⟩)
    ∧ (serve ⟨"", ""⟩ 0
        { method := Method.GET, path := ['/'], creds := none,
          contentType := "", jsonBody := none, formBody := "" } ⟨none⟩).1.status
      = 500
    ∧ serve defaultConfig 0
        { method := Method.GET, path := ['/', 'a', 'p', 'i'], creds := none,
          contentType := "", jsonBody := none, formBody := "" } ⟨none⟩
      = (movedPermanently ['/', 'a', 'p', 'i', '/'], ⟨none⟩) := by
  refine ⟨?_, ?_, ?_⟩ <;> decide

/-- C4 (amended): every request whose Basic credentials (absent ones
read as empty strings, as `r.BasicAuth` yields) do not match the
configured pair receives 401 with a `WWW-Authenticate: Basic` header
and an untouched store, provided the mux dispatches the request to a
registered handler: its path is already in canonical form and is not
exactly "/api" (otherwise the mux answers 301 before any auth check),
and, when the path lies under the API prefix, the method is one of
GET/POST/DELETE/PATCH — other methods there receive 404 from the
method switch without an auth check. -/
theorem auth_gate_amended (cfg : Config) (now : Int) (r : Request)
    (s : DBState)
    (hauth : authorized (basicCreds r).1 (basicCreds r).2 cfg = false)
    (hcanon : cleanPath r.path = r.path)
    (hroot : r.path ≠ ['/', 'a', 'p', 'i']) :
    (apiPrefixChars.isPrefixOf r.path = true → handledMethod r.method = true →
      serve cfg now r s = (unauthorizedResp, s))
    ∧ (apiPrefixChars.isPrefixOf r.path = false →
      serve cfg now r s = (unauthorizedResp, s)) := by
  have hmid : ∀ h, authMiddleware cfg r h s = (unauthorizedResp, s) :=
    fun h => authMiddleware_unauthorized cfg r h s hauth
  constructor
  · intro hp hm
    cases hMeth : r.method <;> simp_all [serve, handledMethod]
  · intro hp
    simp [serve, hcanon, hroot, hp, hmid]

theorem auth_gate_amended_witness :
    (authorized
        (basicCreds ⟨Method.GET, ['/'], none, "", none, ""⟩).1
        (basicCreds ⟨Method.GET, ['/'], none, "", none, ""⟩).2
        defaultConfig = false
     ∧ cleanPath ['/'] = ['/']
     ∧ (['/'] : List Char) ≠ ['/', 'a', 'p', 'i'])
    ∧ ((apiPrefixChars.isPrefixOf ['/'] = true →
        handledMethod Method.GET = true →
        serve defaultConfig 0 ⟨Method.GET, ['/'], none, "", none, ""⟩ ⟨none⟩
          = (unauthorizedResp, ⟨none⟩))
      ∧ (apiPrefixChars.isPrefixOf ['/'] = false →
        serve defaultConfig 0 ⟨Method.GET, ['/'], none, "", none, ""⟩ ⟨none⟩
          = (unauthorizedResp, ⟨none⟩))) :=
  ⟨⟨by decide, by decide, by decide⟩,
   auth_gate_amended defaultConfig 0 ⟨Method.GET, ['/'], none, "", none, ""⟩
     ⟨none⟩ (by decide) (by decide) (by decide)⟩

/-- A list is a prefix of itself followed by anything. -/
lemma isPrefixOf_append_self (l t : List Char) :
    l.isPrefixOf (l ++ t) = true := by
  rw [List.isPrefixOf_iff_prefix]
  exact List.prefix_append l t

/-- takeWhile passes over a block that satisfies the predicate. -/
lemma takeWhile_append_of_all (pred : Char → Bool) (l t : List Char)
    (h : ∀ c ∈ l, pred c = true) :
    (l ++ t).takeWhile pred = l ++ t.takeWhile pred := by
  induction l with
  | nil => rfl
  | cons c cs ih =>
    simp only [List.cons_append, List.takeWhile_cons]
    rw [h c (List.mem_cons_self c cs)]
    simp [ih (fun x hx => h x (List.mem_cons_of_mem c hx))]

/-- takeWhile stops immediately when the head fails the predicate. -/
lemma takeWhile_eq_nil_of_head (pred : Char → Bool) (l : List Char)
    (h : ∀ c ∈ l.take 1, pred c = false) :
    l.takeWhile pred = [] := by
  cases l with
  | nil => rfl
  | cons c cs =>
    have hc : pred c = false := h c (by simp)
    simp [List.takeWhile_cons, hc]

/-- The regexp captures the digit run right after the prefix, ignoring
any non-digit tail. -/
lemma findID_match (ds junk : List Char) (hne : ds ≠ [])
    (hdig : ∀ c ∈ ds, c.isDigit = true)
    (hjunk : ∀ c ∈ junk.take 1, c.isDigit = false) :
    findID (apiPrefixChars ++ (ds ++ junk)) = some ds := by
  have hrun : (ds ++ junk).takeWhile Char.isDigit = ds := by
    rw [takeWhile_append_of_all Char.isDigit ds junk hdig,
      takeWhile_eq_nil_of_head Char.isDigit junk hjunk, List.append_nil]
  have hemp : ds.isEmpty = false := by
    cases ds with
    | nil => exact absurd rfl hne
    | cons d ds2 => rfl
  show findID ('/' :: 'a' :: 'p' :: 'i' :: '/' :: (ds ++ junk)) = some ds
  simp [findID, List.isPrefixOf, hrun, hemp]

/-- The regexp finds no match in a digit-free path. -/
lemma findID_none (p : List Char) (h : ∀ c ∈ p, c.isDigit = false) :
    findID p = none := by
  induction p with
  | nil => rfl
  | cons c cs ih =>
    have ih2 := ih (fun x hx => h x (List.mem_cons_of_mem c hx))
    have hrun : ((c :: cs).drop 5).takeWhile Char.isDigit = [] :=
      takeWhile_eq_nil_of_head Char.isDigit _
        (fun x hx =>
          h x (List.drop_subset 5 (c :: cs) (List.take_subset 1 _ hx)))
    simp only [findID, ih2]
    split
    · rw [hrun]
      rfl
    · rfl

/-- C8 counterexample: an authenticated DELETE of `/api/12abc` — a
request whose trailing path segment "12abc" is not numeric — does not
receive 404: the unanchored regexp extracts `12` and the store removes
item 12. -/
theorem withID_junk_counterexample :
    serve defaultConfig 0
      { method := Method.DELETE,
        path := ['/', 'a', 'p', 'i', '/', '1', '2', 'a', 'b', 'c'],
        creds := some ("todow", "todow"), contentType := "",
        jsonBody := none, formBody := "" }
      (stGood [⟨12, "x", 0, false⟩])
      = ({ status := 200, body := "Removed item #12\n" }, stGood []) := by
  decide

/-- C8 (amended): `withID` extracts as the ID the maximal digit run
immediately following the API path prefix, ignoring (rather than
rejecting) any non-digit tail after the digits, and a path containing
no digits at all — in particular a missing or purely alphabetic
trailing segment — receives 404 without the wrapped store handler
being invoked. -/
theorem withID_extracts_digit_run (h : Int → DBState → Response × DBState)
    (ds junk p : List Char) (s : DBState)
    (hne : ds ≠ []) (hdig : ∀ c ∈ ds, c.isDigit = true)
    (hjunk : ∀ c ∈ junk.take 1, c.isDigit = false)
    (hnodig : ∀ c ∈ p, c.isDigit = false) :
    withID h (apiPrefixChars ++ (ds ++ junk)) s = h (parseInt64 ds) s
    ∧ withID h p s = (notFoundResp, s) := by
  constructor
  · rw [withID, findID_match ds junk hne hdig hjunk]
  · rw [withID, findID_none p hnodig]

theorem withID_extracts_digit_run_witness :
    ((['4', '2'] : List Char) ≠ []
     ∧ (∀ c ∈ (['4', '2'] : List Char), c.isDigit = true)
     ∧ (∀ c ∈ (['x'] : List Char).take 1, c.isDigit = false)
     ∧ (∀ c ∈ (['/', 'a', 'p', 'i', '/'] : List Char), c.isDigit = false))
    ∧ (withID removeItem (apiPrefixChars ++ (['4', '2'] ++ ['x']))
          (stGood [⟨42, "b", 0, false⟩])
        = removeItem (parseInt64 ['4', '2']) (stGood [⟨42, "b", 0, false⟩])
      ∧ withID removeItem ['/', 'a', 'p', 'i', '/']
          (stGood [⟨42, "b", 0, false⟩])
        = (notFoundResp, stGood [⟨42, "b", 0, false⟩])) :=
  ⟨⟨by decide, by decide, by decide, by decide⟩,
   withID_extracts_digit_run removeItem ['4', '2'] ['x']
     ['/', 'a', 'p', 'i', '/'] (stGood [⟨42, "b", 0, false⟩])
     (by decide) (by decide) (by decide) (by decide)⟩

/-- C9: the Add handler dispatches on Content-Type exactly as claimed:
"application/json" stores the decoded item with the caller-supplied
Created timestamp (or answers 400 on a decode failure, store
untouched); "application/x-www-form-urlencoded" stores an item whose
Body is the form field "body" and whose Created is the server's
current time, then redirects; any other Content-Type is rejected with
400 and the store state is unchanged. -/
theorem addItem_content_type_dispatch (now : Int) (r : Request)
    (col : List Item) (s : DBState) :
    (r.contentType = "application/json" →
      ∀ it, r.jsonBody = some it →
        addItem now r (stGood col)
          = ({ status := 201,
               body := "Added item #" ++ toString (nextID col) ++ "\n" },
             stGood (col ++ [{ it with ID := nextID col }])))
    ∧ (r.contentType = "application/json" → r.jsonBody = none →
        addItem now r s
          = ({ status := 400,
               body := "unable to decode todo item: %!s(MISSING)\n" }, s))
    ∧ (r.contentType = "application/x-www-form-urlencoded" →
        addItem now r (stGood col)
          = ({ status := 303, body := "", location := some "/" },
             stGood (col ++ [{ ID := nextID col, Body := r.formBody,
                               Created := now, Done := false }])))
    ∧ (r.contentType ≠ "application/json" →
       r.contentType ≠ "application/x-www-form-urlencoded" →
        addItem now r s
          = ({ status := 400, body := "content type not supported\n" }, s)) := by
  refine ⟨?_, ?_, ?_, ?_⟩
  · intro hct it hit
    unfold addItem
    rw [if_pos hct, hit]
    rfl
  · intro hct hit
    unfold addItem
    rw [if_pos hct, hit]
  · intro hct
    unfold addItem
    rw [if_neg (by rw [hct]; decide), if_pos hct]
    rfl
  · intro hct1 hct2
    unfold addItem
    rw [if_neg hct1, if_neg hct2]

theorem addItem_content_type_dispatch_witness :
    (addItem 5 ⟨Method.POST, apiPrefixChars, some ("todow", "todow"),
        "application/json", some ⟨0, "buy milk", 3, false⟩, ""⟩
        (stGood [])
      = ({ status := 201, body := "Added item #" ++ toString (nextID []) ++ "\n" },
         stGood ([] ++ [{ (⟨0, "buy milk", 3, false⟩ : Item) with
                          ID := nextID [] }])))
    ∧ (addItem 5 ⟨Method.POST, apiPrefixChars, some ("todow", "todow"),
        "text/plain", none, ""⟩ (stGood [])
      = ({ status := 400, body := "content type not supported\n" },
         stGood [])) :=
  ⟨(addItem_content_type_dispatch 5
      ⟨Method.POST, apiPrefixChars, some ("todow", "todow"),
        "application/json", some ⟨0, "buy milk", 3, false⟩, ""⟩
      [] (stGood [])).1 rfl ⟨0, "buy milk", 3, false⟩ rfl,
   (addItem_content_type_dispatch 5
      ⟨Method.POST, apiPrefixChars, some ("todow", "todow"),
        "text/plain", none, ""⟩
      [] (stGood [])).2.2.2 (by decide) (by decide)⟩

/-- C10: the store discards any caller-supplied ID and overwrites it
with the computed next ID, while Body, Created and Done are persisted
exactly as given — through the JSON handler path a caller can thus
create an item whose Done flag is already true. -/
theorem addItem_overwrites_caller_ID (item : Item) (col : List Item) :
    boltDB.addItem item (stGood col)
      = (none, stGood (col ++ [{ item with ID := nextID col }]),
         { item with ID := nextID col })
    ∧ ({ item with ID := nextID col }).Body = item.Body
    ∧ ({ item with ID := nextID col }).Created = item.Created
    ∧ ({ item with ID := nextID col }).Done = item.Done
    ∧ ({ item with ID := nextID col }).ID = nextID col
    ∧ (∀ now (r : Request), r.contentType = "application/json" →
        r.jsonBody = some item →
        (addItem now r (stGood col)).2
          = stGood (col ++ [{ item with ID := nextID col }])) := by
  refine ⟨rfl, rfl, rfl, rfl, rfl, ?_⟩
  intro now r hct hit
  unfold addItem
  rw [if_pos hct, hit]
  rfl

theorem addItem_overwrites_caller_ID_witness :
    (boltDB.addItem ⟨77, "x", 5, true⟩ (stGood [⟨1, "a", 0, false⟩])).2.2.Done
      = true
    ∧ (boltDB.addItem ⟨77, "x", 5, true⟩ (stGood [⟨1, "a", 0, false⟩])).2.2.ID
      = 2
    ∧ (addItem 9 ⟨Method.POST, apiPrefixChars, some ("todow", "todow"),
        "application/json", some ⟨77, "x", 5, true⟩, ""⟩
        (stGood [⟨1, "a", 0, false⟩])).2
      = stGood [⟨1, "a", 0, false⟩, ⟨2, "x", 5, true⟩] := by
  have h := addItem_overwrites_caller_ID ⟨77, "x", 5, true⟩ [⟨1, "a", 0, false⟩]
  refine ⟨?_, ?_, ?_⟩
  · rw [h.1]
  · rw [h.1]
    decide
  · rw [h.2.2.2.2.2 9
      ⟨Method.POST, apiPrefixChars, some ("todow", "todow"),
        "application/json", some ⟨77, "x", 5, true⟩, ""⟩ rfl rfl]
    decide
